import Mathlib

/-!
Verification of the infiniax-deno-proxy translation gateway (src/main.ts).

The development shallowly embeds the proxy's pure core: the request mapper
(`transformRequest`), the upstream SSE parser and OpenAI-format re-encoder
of the streaming path (`handleStreamingResponse` with its TransformStream
`transform`/`flush` steps), the non-streaming aggregator (`parseInfiniaxSSE`,
`handleNonStreamingResponse`), and the dispatcher (`handleChatCompletions`).

Modelling conventions:
- Text is `List Char` (`Str`).  Upstream byte chunks are modelled as already
  decoded text chunks, matching the per-chunk `TextDecoder().decode` call.
- Impure identifier/timestamp generation (`generateId()`, `Date.now()`) is
  modelled by passing the generated `responseId` and `created` values as
  parameters, bound once per call exactly as the source binds them once in
  `handleStreamingResponse` / `handleChatCompletions`.
- `JSON.parse` is modelled by `jsonParse`, a recursive-descent parser for the
  JSON subset exercised by the wire protocol (objects, arrays, strings with
  escapes, integer numerals, booleans, null).  Fractional/exponent numerals
  and leading-zero rejection are outside the model; no claim depends on them.
- The JavaScript truthiness test `if (data.chunk)` is modelled by
  `chunkText`; truthy object/array chunk payloads are outside the modelled
  protocol (the upstream sends string chunks).
- `fetch` results are modelled by `UpstreamResult`: a thrown network error,
  or a response with a status and an optional body (a list of text chunks);
  `Response.ok` is `200 ≤ status ≤ 299`, and `.text()` of a missing body is
  the empty string, per the Fetch specification.
-/

abbrev Str := List Char

/-- JavaScript `s.split('\n\n')` on decoded text: pieces between
non-overlapping occurrences of the two-newline separator, scanned left to
right; always returns at least one piece. -/
def jsSplit2NL : Str → List Str
  | [] => [[]]
  | [c] => [[c]]
  | c1 :: c2 :: rest =>
    if c1 = '\n' ∧ c2 = '\n' then [] :: jsSplit2NL rest
    else
      match jsSplit2NL (c2 :: rest) with
      | [] => [[c1]]
      | m :: ms => (c1 :: m) :: ms

/-- JavaScript `s.split('\n')`. -/
def jsSplitNL : Str → List Str
  | [] => [[]]
  | c :: rest =>
    if c = '\n' then [] :: jsSplitNL rest
    else
      match jsSplitNL rest with
      | [] => [[c]]
      | m :: ms => (c :: m) :: ms

/-- The buffer-splitting step of the streaming `transform`:
`const messages = buffer.split('\n\n'); buffer = messages.pop() || ''`.
Returns the complete messages and the retained carry-over buffer. -/
def splitBuffer (s : Str) : List Str × Str :=
  ((jsSplit2NL s).dropLast, (jsSplit2NL s).getLastD [])

/-- Fused one-pass form of `splitBuffer`, used for the proofs; proved equal
to `splitBuffer` in `splitBuffer_eq_splitMsgs`. -/
def splitMsgs : Str → List Str × Str
  | [] => ([], [])
  | [c] => ([], [c])
  | c1 :: c2 :: rest =>
    if c1 = '\n' ∧ c2 = '\n' then
      let p := splitMsgs rest
      ([] :: p.1, p.2)
    else
      match splitMsgs (c2 :: rest) with
      | ([], b) => ([], c1 :: b)
      | (m :: ms, b) => ((c1 :: m) :: ms, b)

/-- Whether the text contains two consecutive newlines (the record
separator). -/
def hasNN : Str → Bool
  | [] => false
  | [_] => false
  | c1 :: c2 :: rest => (c1 == '\n' && c2 == '\n') || hasNN (c2 :: rest)

/-- Whether the text contains a newline at all. -/
def hasNL (s : Str) : Bool := s.any (· == '\n')

/-! ### JSON value model (`JSON.parse`) -/

/-- Dynamic JSON/JavaScript values, as produced by `JSON.parse` and as held
in the untyped request object the dispatcher receives from `req.json()`. -/
inductive Json where
  | str (s : Str)
  | num (n : Int)
  | bool (b : Bool)
  | null
  | obj (fields : List (Str × Json))
  | arr (elems : List Json)

/-- JSON insignificant whitespace. -/
def isJsonWs (c : Char) : Bool := c == ' ' || c == '\n' || c == '\r' || c == '\t'

def skipWs (s : Str) : Str := s.dropWhile isJsonWs

/-- Map a JSON string escape character to the character it denotes. -/
def escChar? : Char → Option Char
  | '"' => some '"'
  | '\\' => some '\\'
  | '/' => some '/'
  | 'b' => some (Char.ofNat 8)
  | 'f' => some (Char.ofNat 12)
  | 'n' => some '\n'
  | 'r' => some '\r'
  | 't' => some '\t'
  | _ => none

/-- Value of a hexadecimal digit. -/
def hexVal? (c : Char) : Option Nat :=
  if '0' ≤ c ∧ c ≤ '9' then some (c.toNat - 48)
  else if 'a' ≤ c ∧ c ≤ 'f' then some (c.toNat - 87)
  else if 'A' ≤ c ∧ c ≤ 'F' then some (c.toNat - 55)
  else none

/-- Parse the body of a JSON string after the opening quote, returning the
decoded characters and the remaining input after the closing quote.  Raw
control characters are rejected, as in JSON. -/
def parseStrBody : Str → Option (Str × Str)
  | '"' :: rest => some ([], rest)
  | '\\' :: 'u' :: h1 :: h2 :: h3 :: h4 :: rest =>
    match hexVal? h1, hexVal? h2, hexVal? h3, hexVal? h4 with
    | some a, some b, some c, some d =>
      (parseStrBody rest).map fun p => (Char.ofNat (((a * 16 + b) * 16 + c) * 16 + d) :: p.1, p.2)
    | _, _, _, _ => none
  | '\\' :: e :: rest =>
    match escChar? e with
    | some ch => (parseStrBody rest).map fun p => (ch :: p.1, p.2)
    | none => none
  | c :: rest =>
    if c.toNat < 32 then none
    else (parseStrBody rest).map fun p => (c :: p.1, p.2)
  | [] => none

/-- Parse an unsigned decimal numeral. -/
def parseDigits (s : Str) : Option (Nat × Str) :=
  let ds := s.takeWhile (·.isDigit)
  if ds.isEmpty then none
  else some (ds.foldl (fun a c => a * 10 + (c.toNat - 48)) 0, s.dropWhile (·.isDigit))

/-- Parse an (optionally negated) integer numeral. -/
def parseNum (s : Str) : Option (Json × Str) :=
  match s with
  | '-' :: rest => (parseDigits rest).map fun p => (Json.num (-(p.1 : Int)), p.2)
  | _ => (parseDigits s).map fun p => (Json.num (p.1 : Int), p.2)

/-- Parse the members of a JSON object after `{`, given a parser `pv` for
values; expects at least one member (the empty object is handled by the
caller).  `fuel` bounds the recursion. -/
def parseFieldsWith (pv : Str → Option (Json × Str)) : Nat → Str → Option (List (Str × Json) × Str)
  | 0, _ => none
  | fuel + 1, s =>
    match skipWs s with
    | '"' :: rest =>
      match parseStrBody rest with
      | some (k, r1) =>
        match skipWs r1 with
        | ':' :: r2 =>
          match pv r2 with
          | some (v, r3) =>
            match skipWs r3 with
            | ',' :: r4 => (parseFieldsWith pv fuel r4).map fun p => ((k, v) :: p.1, p.2)
            | '\x7d' :: r4 => some ([(k, v)], r4)
            | _ => none
          | none => none
        | _ => none
      | none => none
    | _ => none

/-- Parse the elements of a JSON array after `[`, given a parser `pv` for
values; expects at least one element. -/
def parseElemsWith (pv : Str → Option (Json × Str)) : Nat → Str → Option (List Json × Str)
  | 0, _ => none
  | fuel + 1, s =>
    match pv s with
    | some (v, r1) =>
      match skipWs r1 with
      | ',' :: r2 => (parseElemsWith pv fuel r2).map fun p => (v :: p.1, p.2)
      | ']' :: r2 => some ([v], r2)
      | _ => none
    | none => none

/-- Parse one JSON value, returning it with the remaining input. -/
def parseVal : Nat → Str → Option (Json × Str)
  | 0, _ => none
  | fuel + 1, s0 =>
    match skipWs s0 with
    | '"' :: rest => (parseStrBody rest).map fun p => (Json.str p.1, p.2)
    | 't' :: 'r' :: 'u' :: 'e' :: rest => some (Json.bool true, rest)
    | 'f' :: 'a' :: 'l' :: 's' :: 'e' :: rest => some (Json.bool false, rest)
    | 'n' :: 'u' :: 'l' :: 'l' :: rest => some (Json.null, rest)
    | '\x7b' :: rest =>
      match skipWs rest with
      | '\x7d' :: r1 => some (Json.obj [], r1)
      | _ => (parseFieldsWith (parseVal fuel) fuel rest).map fun p => (Json.obj p.1, p.2)
    | '[' :: rest =>
      match skipWs rest with
      | ']' :: r1 => some (Json.arr [], r1)
      | _ => (parseElemsWith (parseVal fuel) fuel rest).map fun p => (Json.arr p.1, p.2)
    | s => parseNum s

/-- `JSON.parse`: parse one value and require only whitespace after it. -/
def jsonParse (s : Str) : Option Json :=
  match parseVal (s.length + 1) s with
  | some (v, rest) => if (skipWs rest).isEmpty then some v else none
  | none => none

/-- JavaScript property access `v[k]` on a parsed value: `undefined` (here
`none`) unless `v` is an object with the key; later duplicate keys win, as
in `JSON.parse`. -/
def jsGet (v : Json) (k : Str) : Option Json :=
  match v with
  | Json.obj fields => fields.foldl (fun acc kv => if kv.1 = k then some kv.2 else acc) none
  | _ => none

/-- JavaScript truthiness of a JSON value. -/
def jsTruthy : Json → Bool
  | Json.str s => !s.isEmpty
  | Json.num n => n != 0
  | Json.bool b => b
  | Json.null => false
  | Json.obj _ => true
  | Json.arr _ => true

/-- JavaScript truthiness of a possibly-`undefined` value. -/
def jsTruthyO : Option Json → Bool
  | none => false
  | some v => jsTruthy v

/-- The `data.chunk` truthiness test plus extraction of the emitted fragment
text.  String chunks yield themselves when non-empty; the other primitive
truthy values yield their JavaScript string coercion. -/
def chunkText : Option Json → Option Str
  | some (Json.str s) => if s.isEmpty then none else some s
  | some (Json.bool true) => some ("true".toList)
  | some (Json.num n) => if n = 0 then none else some ((toString n).toList)
  | _ => none

/-- Processing of one complete record by both the streaming `transform` loop
and the non-streaming line loop: if it starts with `data: `, parse the rest
as JSON and extract a truthy `chunk` field; otherwise (or on a parse
failure) yield nothing. -/
def dataFrag (msg : Str) : Option Str :=
  if ("data: ".toList).isPrefixOf msg then
    match jsonParse (msg.drop 6) with
    | some v => chunkText (jsGet v ("chunk".toList))
    | none => none
  else none

/-- `parseInfiniaxSSE`: split the full upstream body on single newlines and
concatenate every truthy `chunk` of every `data: `-prefixed line, in order. -/
def parseInfiniaxSSE (sseText : Str) : Str :=
  ((jsSplitNL sseText).filterMap dataFrag).flatten

/-! ### OpenAI stream-chunk shapes (`OpenAIStreamChunk`) -/

/-- The `delta` object of a stream chunk; `none` fields are absent
(`undefined`), and are omitted by `JSON.stringify`. -/
structure SDelta where
  role : Option Str
  content : Option Str
deriving DecidableEq

/-- One element of a stream chunk's `choices` array. -/
structure SChoice where
  index : Nat
  delta : SDelta
  finish_reason : Option Str
deriving DecidableEq

/-- The `OpenAIStreamChunk` object. -/
structure SChunk where
  id : Str
  object : Str
  created : Nat
  model : Str
  choices : List SChoice
deriving DecidableEq

/-- `transformStreamChunk`: the OpenAI-format chunk built for one content
fragment; the first chunk of a call carries `role: "assistant"` in its
delta, later ones carry only `content`; `finish_reason` is null. -/
def transformStreamChunk (content model responseId : Str) (created : Nat) (isFirst : Bool) : SChunk :=
  { id := responseId
    object := "chat.completion.chunk".toList
    created := created
    model := model
    choices := [{ index := 0
                  delta := if isFirst then { role := some ("assistant".toList), content := some content }
                           else { role := none, content := some content }
                  finish_reason := none }] }

/-- `createStreamEndChunk` (the chunk part): empty delta and
`finish_reason: "stop"`.  The serialized form appends the `[DONE]` sentinel,
see `eventText`. -/
def createStreamEndChunk (model responseId : Str) (created : Nat) : SChunk :=
  { id := responseId
    object := "chat.completion.chunk".toList
    created := created
    model := model
    choices := [{ index := 0
                  delta := { role := none, content := none }
                  finish_reason := some ("stop".toList) }] }

/-! ### Serialization (`JSON.stringify` of the fixed chunk shape) -/

/-- Hexadecimal digit character (lowercase). -/
def hexDigit (n : Nat) : Char := if n < 10 then Char.ofNat (48 + n) else Char.ofNat (87 + n)

/-- `JSON.stringify` escaping of one string character. -/
def escOut (ch : Char) : Str :=
  if ch = '"' then ['\\', '"']
  else if ch = '\\' then ['\\', '\\']
  else if ch = '\n' then ['\\', 'n']
  else if ch = '\r' then ['\\', 'r']
  else if ch = '\t' then ['\\', 't']
  else if ch = Char.ofNat 8 then ['\\', 'b']
  else if ch = Char.ofNat 12 then ['\\', 'f']
  else if ch.toNat < 32 then ['\\', 'u', '0', '0', hexDigit (ch.toNat / 16), hexDigit (ch.toNat % 16)]
  else [ch]

/-- A JSON string literal. -/
def qstr (s : Str) : Str := '"' :: (s.map escOut).flatten ++ ['"']

/-- Serialized delta object, fields in insertion order, absent fields
omitted. -/
def serDelta (d : SDelta) : Str :=
  let ps :=
    (match d.role with
     | some r => ["\"role\":".toList ++ qstr r]
     | none => []) ++
    (match d.content with
     | some c => ["\"content\":".toList ++ qstr c]
     | none => [])
  "\x7b".toList ++ List.intercalate (",".toList) ps ++ "\x7d".toList

/-- Serialized choice object. -/
def serChoice (c : SChoice) : Str :=
  "\x7b\"index\":".toList ++ (toString c.index).toList ++
  ",\"delta\":".toList ++ serDelta c.delta ++
  ",\"finish_reason\":".toList ++
  (match c.finish_reason with
   | none => "null".toList
   | some s => qstr s) ++ "\x7d".toList

/-- Serialized stream chunk, fields in insertion order. -/
def serChunk (c : SChunk) : Str :=
  "\x7b\"id\":".toList ++ qstr c.id ++
  ",\"object\":".toList ++ qstr c.object ++
  ",\"created\":".toList ++ (toString c.created).toList ++
  ",\"model\":".toList ++ qstr c.model ++
  ",\"choices\":[".toList ++ List.intercalate (",".toList) (c.choices.map serChoice) ++
  "]\x7d".toList

/-! ### The streaming TransformStream -/

/-- One enqueued SSE output: a content frame (`transformStreamChunk` result),
or the terminal enqueue of `flush` (`createStreamEndChunk` result, whose
serialized form carries the `[DONE]` sentinel). -/
inductive OutEvent where
  | content (c : SChunk)
  | terminal (c : SChunk)
deriving DecidableEq

/-- The bytes each enqueue writes to the caller's stream. -/
def eventText : OutEvent → Str
  | OutEvent.content c => "data: ".toList ++ serChunk c ++ "\n\n".toList
  | OutEvent.terminal c => "data: ".toList ++ serChunk c ++ "\n\ndata: [DONE]\n\n".toList

/-- Mutable state of one streaming call: the `isFirst` flag and the
carry-over `buffer`. -/
structure TState where
  isFirst : Bool
  buffer : Str
deriving DecidableEq

/-- The `for (const msg of messages)` loop body of `transform`: emit a chunk
for every record with a truthy `chunk` field, clearing `isFirst` after the
first emission.  Returns the final flag and the emitted chunks. -/
def runMsgs (model responseId : Str) (created : Nat) : Bool → List Str → Bool × List SChunk
  | isFirst, [] => (isFirst, [])
  | isFirst, msg :: ms =>
    match dataFrag msg with
    | some f =>
      let c := transformStreamChunk f model responseId created isFirst
      let p := runMsgs model responseId created false ms
      (p.1, c :: p.2)
    | none => runMsgs model responseId created isFirst ms

/-- One `transform(chunk, controller)` call: append the decoded chunk to the
buffer, split off complete records, keep the remainder, process the
records. -/
def transformStep (model responseId : Str) (created : Nat) (st : TState) (chunk : Str) : TState × List SChunk :=
  let sp := splitBuffer (st.buffer ++ chunk)
  let p := runMsgs model responseId created st.isFirst sp.1
  (⟨p.1, sp.2⟩, p.2)

/-- All `transform` calls of a streaming call, in order. -/
def runChunks (model responseId : Str) (created : Nat) : TState → List Str → TState × List SChunk
  | st, [] => (st, [])
  | st, ch :: rest =>
    let p1 := transformStep model responseId created st ch
    let p2 := runChunks model responseId created p1.1 rest
    (p2.1, p1.2 ++ p2.2)

/-- The record-processing part of `flush`: one final single-record parse of
the leftover buffer. -/
def flushChunks (model responseId : Str) (created : Nat) (st : TState) : List SChunk :=
  match dataFrag st.buffer with
  | some f => [transformStreamChunk f model responseId created st.isFirst]
  | none => []

/-- The full output of the TransformStream for one streaming call fed the
given upstream chunks: the content frames of every `transform` call, then
the content frame (if any) and terminal enqueue of `flush`. -/
def transformStream (model responseId : Str) (created : Nat) (chunks : List Str) : List OutEvent :=
  let p := runChunks model responseId created ⟨true, []⟩ chunks
  (p.2 ++ flushChunks model responseId created p.1).map OutEvent.content ++
    [OutEvent.terminal (createStreamEndChunk model responseId created)]

/-- The fragment carried by one output event (the `delta.content` of a
content frame). -/
def eventFragment : OutEvent → Option Str
  | OutEvent.content c =>
    match c.choices with
    | [ch] => ch.delta.content
    | _ => none
  | OutEvent.terminal _ => none

/-- The fragments a streaming call emits, in order. -/
def streamedFragments (model responseId : Str) (created : Nat) (chunks : List Str) : List Str :=
  (transformStream model responseId created chunks).filterMap eventFragment

/-- The content frames of a streaming call, in order. -/
def contentFrames (model responseId : Str) (created : Nat) (chunks : List Str) : List SChunk :=
  (transformStream model responseId created chunks).filterMap fun e =>
    match e with
    | OutEvent.content c => some c
    | OutEvent.terminal _ => none

/-! ### Dispatcher (`handleChatCompletions`) and the response paths -/

/-- Result of the upstream `fetch`: a thrown transport error, or a response
with an HTTP status and an optional body (a sequence of decoded text
chunks; `none` is a null body). -/
inductive UpstreamResult where
  | netFail
  | resp (status : Nat) (body : Option (List Str))
deriving DecidableEq

/-- The non-streaming `OpenAIResponse` message. -/
structure RespMessage where
  role : Str
  content : Str
deriving DecidableEq

/-- One element of the non-streaming response's `choices`. -/
structure RespChoice where
  index : Nat
  message : RespMessage
  finish_reason : Str
deriving DecidableEq

/-- The non-streaming `OpenAIResponse` object. -/
structure OpenAIResponse where
  id : Str
  object : Str
  created : Nat
  model : Str
  choices : List RespChoice
deriving DecidableEq

/-- `transformResponse`: the aggregated non-streaming response body. -/
def transformResponse (responseId : Str) (created : Nat) (content model : Str) : OpenAIResponse :=
  { id := responseId
    object := "chat.completion".toList
    created := created
    model := model
    choices := [{ index := 0
                  message := { role := "assistant".toList, content := content }
                  finish_reason := "stop".toList }] }

/-- Caller-visible outcome of one chat-completions call: an error response
(`errorResponse(message, status)`), a 200 `text/event-stream` of output
events, or a 200 aggregated JSON response. -/
inductive ChatResult where
  | err (status : Nat) (message : Str)
  | stream (events : List OutEvent)
  | completion (resp : OpenAIResponse)
deriving DecidableEq

/-- HTTP status of a caller-visible outcome. -/
def statusOf : ChatResult → Nat
  | ChatResult.err s _ => s
  | ChatResult.stream _ => 200
  | ChatResult.completion _ => 200

/-- Body text of `errorResponse`: `JSON.stringify({ error: { message } })`. -/
def errorBody (message : Str) : Str :=
  "\x7b\"error\":\x7b\"message\":".toList ++ qstr message ++ "\x7d\x7d".toList

/-- Status and body of a caller-visible outcome; error outcomes render the
standard error body. -/
def renderError (r : ChatResult) : Option (Nat × Str) :=
  match r with
  | ChatResult.err s m => some (s, errorBody m)
  | _ => none

/-- `handleUpstreamError`: upstream 401/403 become 401 "Authentication
failed"; every other non-success status becomes 502 "Upstream error". -/
def handleUpstreamError (status : Nat) : ChatResult :=
  if status = 401 ∨ status = 403 then ChatResult.err 401 ("Authentication failed".toList)
  else ChatResult.err 502 ("Upstream error".toList)

/-- `handleStreamingResponse`: reject a null upstream body with 502,
otherwise pipe the body through the TransformStream. -/
def handleStreamingResponse (body : Option (List Str)) (model responseId : Str) (created : Nat) : ChatResult :=
  match body with
  | none => ChatResult.err 502 ("No response body from upstream".toList)
  | some chunks => ChatResult.stream (transformStream model responseId created chunks)

/-- `handleNonStreamingResponse`: aggregate the full body text with
`parseInfiniaxSSE` and wrap it via `transformResponse`. -/
def handleNonStreamingResponse (bodyText : Str) (model responseId : Str) (created : Nat) : ChatResult :=
  ChatResult.completion (transformResponse responseId created (parseInfiniaxSSE bodyText) model)

/-- `openaiReq.stream === true`: strict equality with the boolean `true`. -/
def isStreamTrue : Option Json → Bool
  | some (Json.bool true) => true
  | _ => false

/-- The model string used in response frames (`openaiReq.model`, declared
`string` in the source). -/
def asString : Option Json → Str
  | some (Json.str s) => s
  | _ => []

/-- The validation test `!openaiReq.model || !openaiReq.messages`, negated. -/
def reqValid (req : Json) : Bool :=
  jsTruthyO (jsGet req ("model".toList)) && jsTruthyO (jsGet req ("messages".toList))

/-- `handleChatCompletions` on a parsed request body (`none` when
`req.json()` threw) and an upstream `fetch` outcome.  `responseId` and
`created` are the identifier and timestamp generated once for this call. -/
def handleChatCompletions (responseId : Str) (created : Nat) (parsed : Option Json) (up : UpstreamResult) : ChatResult :=
  match parsed with
  | none => ChatResult.err 400 ("Invalid JSON".toList)
  | some req =>
    if !reqValid req then ChatResult.err 400 ("Missing required fields: model and messages".toList)
    else
      let isStreaming := isStreamTrue (jsGet req ("stream".toList))
      let model := asString (jsGet req ("model".toList))
      match up with
      | UpstreamResult.netFail => ChatResult.err 502 ("Upstream error".toList)
      | UpstreamResult.resp status body =>
        if 200 ≤ status ∧ status ≤ 299 then
          if isStreaming then handleStreamingResponse body model responseId created
          else handleNonStreamingResponse ((body.getD []).flatten) model responseId created
        else handleUpstreamError status

/-! ### Request mapper (`transformRequest`) -/

/-- One chat message. -/
structure ChatMessage where
  role : Str
  content : Str
deriving DecidableEq

/-- The typed caller request (`OpenAIRequest`). -/
structure OpenAIRequest where
  model : Str
  messages : List ChatMessage
  stream : Option Bool
  temperature : Option Int
  max_tokens : Option Nat
  web_search : Option Bool
deriving DecidableEq

/-- The upstream request shape (`InfiniaxRequest`). -/
structure InfiniaxRequest where
  modelId : Str
  messages : List ChatMessage
  webSearchEnabled : Option Bool
deriving DecidableEq

/-- `transformRequest`: copy `model` into `modelId` and pass `messages`
through; set `webSearchEnabled := true` only when `web_search` is truthy. -/
def transformRequest (openaiReq : OpenAIRequest) : InfiniaxRequest :=
  { modelId := openaiReq.model
    messages := openaiReq.messages
    webSearchEnabled :=
      match openaiReq.web_search with
      | some true => some true
      | _ => none }

/-- The fields `JSON.stringify` serializes for the outbound upstream body,
in insertion order. -/
def encodeInfiniaxRequest (r : InfiniaxRequest) : List (Str × Json) :=
  [("modelId".toList, Json.str r.modelId),
   ("messages".toList,
    Json.arr (r.messages.map fun m => Json.obj [("role".toList, Json.str m.role), ("content".toList, Json.str m.content)]))] ++
  (match r.webSearchEnabled with
   | some b => [("webSearchEnabled".toList, Json.bool b)]
   | none => [])

/-! ### Derived specification functions used by the theorems -/

/-- The chunks `emitRun isFirst fs` the re-encoder produces for the fragment
list `fs` when the `isFirst` flag starts as given. -/
def emitRun (model responseId : Str) (created : Nat) : Bool → List Str → List SChunk
  | _, [] => []
  | isFirst, f :: fs =>
    transformStreamChunk f model responseId created isFirst ::
      emitRun model responseId created false fs

/-- The fragments of a complete upstream text processed in one pass: the
fragments of its complete records, then the fragment (if any) of the
leftover buffer as processed by `flush`. -/
def sseFragments (s : Str) : List Str :=
  (splitMsgs s).1.filterMap dataFrag ++ (dataFrag (splitMsgs s).2).toList

/-- The upstream body text formed by the given records, each followed by the
blank-line separator. -/
def recordsText (rs : List Str) : Str := (rs.map (· ++ "\n\n".toList)).flatten

/-- A record is unambiguously framed when it contains no two consecutive
newlines and does not end in a newline (otherwise the position of the
`\n\n` separator around it is ambiguous). -/
def wellFramed (r : Str) : Prop := hasNN r = false ∧ r.getLast? ≠ some '\n'

instance (r : Str) : Decidable (wellFramed r) := by
  unfold wellFramed
  infer_instance

/-- A well-formed non-streaming request body used as a concrete instance:
`{"model":"m","messages":[{"role":"user","content":"hi"}]}`. -/
def sampleRequest : Json :=
  Json.obj [("model".toList, Json.str ("m".toList)),
            ("messages".toList,
             Json.arr [Json.obj [("role".toList, Json.str ("user".toList)),
                                 ("content".toList, Json.str ("hi".toList))]])]

/-- `sampleRequest` with `"stream": true`. -/
def sampleStreamRequest : Json :=
  Json.obj [("model".toList, Json.str ("m".toList)),
            ("messages".toList,
             Json.arr [Json.obj [("role".toList, Json.str ("user".toList)),
                                 ("content".toList, Json.str ("hi".toList))]]),
            ("stream".toList, Json.bool true)]

/-- An upstream body on which the streaming parser and the non-streaming
aggregator disagree: a record whose `data: ` line is preceded by a stray
line inside the same blank-line-delimited block. -/
def mixedRecordText : Str := "X\ndata: \x7b\"chunk\":\"a\"\x7d\n\n".toList

/-- Whether an output event is the terminal enqueue of `flush`. -/
def isTerminalEvent : OutEvent → Bool
  | OutEvent.terminal _ => true
  | OutEvent.content _ => false

/-- The chunk carried by an output event. -/
def eventChunk : OutEvent → SChunk
  | OutEvent.content c => c
  | OutEvent.terminal c => c

/-- Concrete record carrying the fragment `Hel`. -/
def recHel : Str := "data: \x7b\"chunk\":\"Hel\"\x7d".toList

/-- Concrete record carrying the fragment `lo`. -/
def recLo : Str := "data: \x7b\"chunk\":\"lo\"\x7d".toList

/-- Concrete done-marker record carrying no fragment. -/
def recDone : Str := "data: \x7b\"done\":true\x7d".toList

/-- The text of `recHel` and `recLo` with separators, split across chunk
boundaries mid-record and mid-separator. -/
def chunksSplit : List Str :=
  ["da".toList,
   "ta: \x7b\"chunk\":\"Hel\"\x7d\n".toList,
   "\ndata: \x7b\"chunk\":\"lo\"\x7d\n\n".toList]

/-- A concrete typed caller request. -/
def sampleOpenAIRequest : OpenAIRequest :=
  { model := "m".toList
    messages := [{ role := "user".toList, content := "hi".toList }]
    stream := some false
    temperature := some 1
    max_tokens := some 5
    web_search := none }

/-- `sampleRequest` with `"stream": "true"` (a truthy non-boolean). -/
def sampleStreamStrRequest : Json :=
  Json.obj [("model".toList, Json.str ("m".toList)),
            ("messages".toList,
             Json.arr [Json.obj [("role".toList, Json.str ("user".toList)),
                                 ("content".toList, Json.str ("hi".toList))]]),
            ("stream".toList, Json.str ("true".toList))]

/-! ### Lemmas about the buffer splitter -/

theorem jsSplit2NL_decomp : ∀ s : Str, jsSplit2NL s = (splitMsgs s).1 ++ [(splitMsgs s).2] := by
  intro s
  induction s using splitMsgs.induct with
  | case1 => simp [jsSplit2NL, splitMsgs]
  | case2 c => simp [jsSplit2NL, splitMsgs]
  | case3 c1 c2 rest h ih =>
    simp only [jsSplit2NL, splitMsgs, if_pos h, ih]
    simp
  | case4 c1 c2 rest h b heq ih =>
    rw [heq] at ih
    simp only [List.nil_append] at ih
    simp only [jsSplit2NL, splitMsgs, if_neg h, ih, heq]
    simp
  | case5 c1 c2 rest h m ms b heq ih =>
    rw [heq] at ih
    simp only [jsSplit2NL, splitMsgs, if_neg h, ih, heq]
    simp

theorem splitBuffer_eq_splitMsgs : ∀ s : Str, splitBuffer s = splitMsgs s := by
  intro s
  unfold splitBuffer
  rw [jsSplit2NL_decomp]
  rw [List.dropLast_concat]
  rw [List.getLastD_eq_getLast?, List.getLast?_concat]
  simp

theorem splitMsgs_fst_nil : ∀ s : Str, (splitMsgs s).1 = [] → (splitMsgs s).2 = s := by
  intro s
  induction s using splitMsgs.induct with
  | case1 => simp [splitMsgs]
  | case2 c => simp [splitMsgs]
  | case3 c1 c2 rest h ih => simp [splitMsgs, if_pos h]
  | case4 c1 c2 rest h b heq ih =>
    intro _
    rw [heq] at ih
    simp only [forall_const] at ih
    simp [splitMsgs, if_neg h, heq, ih]
  | case5 c1 c2 rest h m ms b heq ih =>
    simp [splitMsgs, if_neg h, heq]

theorem splitMsgs_snd_noNN : ∀ s : Str, hasNN (splitMsgs s).2 = false := by
  intro s
  induction s using splitMsgs.induct with
  | case1 => simp [splitMsgs, hasNN]
  | case2 c => simp [splitMsgs, hasNN]
  | case3 c1 c2 rest h ih => simpa [splitMsgs, if_pos h] using ih
  | case4 c1 c2 rest h b heq ih =>
    rw [heq] at ih
    have hb : b = c2 :: rest := by
      have h2 := splitMsgs_fst_nil (c2 :: rest)
      rw [heq] at h2
      simpa using h2
    subst hb
    have l2 : (splitMsgs (c1 :: c2 :: rest)).2 = c1 :: c2 :: rest := by
      simp [splitMsgs, if_neg h, heq]
    rw [l2]
    simp only [hasNN]
    rw [ih]
    simp only [Bool.or_false, Bool.and_eq_false_iff, beq_eq_false_iff_ne, ne_eq]
    by_cases hc1 : c1 = '\n'
    · right
      intro hc2
      exact h ⟨hc1, hc2⟩
    · left
      exact hc1
  | case5 c1 c2 rest h m ms b heq ih =>
    rw [heq] at ih
    simpa [splitMsgs, if_neg h, heq] using ih

theorem splitMsgs_of_noNN : ∀ s : Str, hasNN s = false → splitMsgs s = ([], s) := by
  intro s
  induction s using splitMsgs.induct with
  | case1 => simp [splitMsgs]
  | case2 c => simp [splitMsgs]
  | case3 c1 c2 rest h ih =>
    intro hn
    rw [h.1, h.2] at hn
    simp [hasNN] at hn
  | case4 c1 c2 rest h b heq ih =>
    intro hn
    simp only [hasNN, Bool.or_eq_false_iff] at hn
    have := ih hn.2
    rw [heq] at this
    simp only [Prod.mk.injEq, true_and] at this
    simp [splitMsgs, if_neg h, heq, this]
  | case5 c1 c2 rest h m ms b heq ih =>
    intro hn
    simp only [hasNN, Bool.or_eq_false_iff] at hn
    have := ih hn.2
    rw [heq] at this
    simp at this

theorem splitMsgs_append : ∀ a c : Str,
    splitMsgs (a ++ c) =
      ((splitMsgs a).1 ++ (splitMsgs ((splitMsgs a).2 ++ c)).1,
       (splitMsgs ((splitMsgs a).2 ++ c)).2) := by
  intro a
  induction a using splitMsgs.induct with
  | case1 => intro c; simp [splitMsgs]
  | case2 ch =>
    intro c
    simp [splitMsgs]
  | case3 c1 c2 rest h ih =>
    intro c
    rw [h.1, h.2]
    have l1 : splitMsgs (('\n' :: '\n' :: rest) ++ c)
        = ([] :: (splitMsgs (rest ++ c)).1, (splitMsgs (rest ++ c)).2) := by
      simp [splitMsgs]
    have l2 : splitMsgs ('\n' :: '\n' :: rest)
        = ([] :: (splitMsgs rest).1, (splitMsgs rest).2) := by
      simp [splitMsgs]
    rw [l1, l2, ih c]
    simp
  | case4 c1 c2 rest h b heq ih =>
    intro c
    have hb : b = c2 :: rest := by
      have h2 := splitMsgs_fst_nil (c2 :: rest)
      rw [heq] at h2
      simpa using h2
    subst hb
    have l2 : splitMsgs (c1 :: c2 :: rest) = ([], c1 :: c2 :: rest) := by
      simp [splitMsgs, if_neg h, heq]
    rw [l2]
    simp
  | case5 c1 c2 rest h m ms b heq ih =>
    intro c
    have l1 : splitMsgs ((c1 :: c2 :: rest) ++ c)
        = (match splitMsgs ((c2 :: rest) ++ c) with
           | ([], bb) => ([], c1 :: bb)
           | (mm :: mms, bb) => ((c1 :: mm) :: mms, bb)) := by
      simp [splitMsgs, if_neg h]
    have l2 : splitMsgs (c1 :: c2 :: rest) = ((c1 :: m) :: ms, b) := by
      simp [splitMsgs, if_neg h, heq]
    rw [l1, ih c, heq, l2]
    simp

/-! ### Lemmas about the streaming pipeline -/

theorem listIsEmpty_append {α : Type} (l1 l2 : List α) :
    (l1 ++ l2).isEmpty = (l1.isEmpty && l2.isEmpty) := by
  cases l1 <;> simp

theorem runMsgs_spec (model responseId : Str) (created : Nat) :
    ∀ (msgs : List Str) (isFirst : Bool),
      runMsgs model responseId created isFirst msgs =
        (isFirst && (msgs.filterMap dataFrag).isEmpty,
         emitRun model responseId created isFirst (msgs.filterMap dataFrag)) := by
  intro msgs
  induction msgs with
  | nil => intro b; simp [runMsgs, emitRun]
  | cons m ms ih =>
    intro b
    cases hf : dataFrag m with
    | none => simp [runMsgs, hf, List.filterMap_cons, ih b]
    | some f => simp [runMsgs, hf, List.filterMap_cons, ih false, emitRun]

theorem emitRun_append (model responseId : Str) (created : Nat) :
    ∀ (xs ys : List Str) (b : Bool),
      emitRun model responseId created b (xs ++ ys) =
        emitRun model responseId created b xs ++
          emitRun model responseId created (b && xs.isEmpty) ys := by
  intro xs
  induction xs with
  | nil => intro ys b; simp [emitRun]
  | cons x xs ih =>
    intro ys b
    simp [emitRun, ih ys false]

theorem runChunks_spec (model responseId : Str) (created : Nat) :
    ∀ (cs : List Str) (st : TState), hasNN st.buffer = false →
      runChunks model responseId created st cs =
        (⟨st.isFirst && ((splitMsgs (st.buffer ++ cs.flatten)).1.filterMap dataFrag).isEmpty,
          (splitMsgs (st.buffer ++ cs.flatten)).2⟩,
         emitRun model responseId created st.isFirst
           ((splitMsgs (st.buffer ++ cs.flatten)).1.filterMap dataFrag)) := by
  intro cs
  induction cs with
  | nil =>
    intro st hb
    have h0 := splitMsgs_of_noNN st.buffer hb
    simp [runChunks, h0, emitRun]
  | cons ch rest ih =>
    intro st hb
    have hbr : hasNN (splitMsgs (st.buffer ++ ch)).2 = false := splitMsgs_snd_noNN _
    have hstep : transformStep model responseId created st ch =
        (⟨st.isFirst && ((splitMsgs (st.buffer ++ ch)).1.filterMap dataFrag).isEmpty,
          (splitMsgs (st.buffer ++ ch)).2⟩,
         emitRun model responseId created st.isFirst
           ((splitMsgs (st.buffer ++ ch)).1.filterMap dataFrag)) := by
      unfold transformStep
      rw [splitBuffer_eq_splitMsgs]
      simp only [runMsgs_spec]
    have hrec := ih ⟨st.isFirst && ((splitMsgs (st.buffer ++ ch)).1.filterMap dataFrag).isEmpty,
                    (splitMsgs (st.buffer ++ ch)).2⟩ hbr
    have hsplit : splitMsgs (st.buffer ++ (ch :: rest).flatten)
        = ((splitMsgs (st.buffer ++ ch)).1 ++
             (splitMsgs ((splitMsgs (st.buffer ++ ch)).2 ++ rest.flatten)).1,
           (splitMsgs ((splitMsgs (st.buffer ++ ch)).2 ++ rest.flatten)).2) := by
      rw [List.flatten_cons, ← List.append_assoc]
      exact splitMsgs_append (st.buffer ++ ch) rest.flatten
    simp only [runChunks, hstep, hrec, hsplit]
    simp [List.filterMap_append, listIsEmpty_append, emitRun_append, Bool.and_assoc]

theorem transformStream_eq (model responseId : Str) (created : Nat) (chunks : List Str) :
    transformStream model responseId created chunks =
      (emitRun model responseId created true (sseFragments chunks.flatten)).map OutEvent.content ++
        [OutEvent.terminal (createStreamEndChunk model responseId created)] := by
  unfold transformStream
  rw [runChunks_spec model responseId created chunks ⟨true, []⟩ rfl]
  simp only [List.nil_append, flushChunks, sseFragments, Bool.true_and]
  cases hf : dataFrag (splitMsgs chunks.flatten).2 with
  | none =>
    simp [hf, emitRun_append, emitRun]
  | some f =>
    simp [hf, emitRun_append, emitRun]

theorem emitRun_content_fragments (model responseId : Str) (created : Nat) :
    ∀ (fs : List Str) (b : Bool),
      (emitRun model responseId created b fs).filterMap
          (fun c => eventFragment (OutEvent.content c)) = fs := by
  intro fs
  induction fs with
  | nil => intro b; simp [emitRun]
  | cons f fs ih =>
    intro b
    have hhead : eventFragment (OutEvent.content (transformStreamChunk f model responseId created b)) = some f := by
      cases b <;> rfl
    simp only [emitRun, List.filterMap_cons, hhead]
    rw [ih false]

theorem streamedFragments_eq (model responseId : Str) (created : Nat) (chunks : List Str) :
    streamedFragments model responseId created chunks = sseFragments chunks.flatten := by
  unfold streamedFragments
  rw [transformStream_eq]
  rw [List.filterMap_append, List.filterMap_map]
  have h2 : List.filterMap eventFragment [OutEvent.terminal (createStreamEndChunk model responseId created)] = [] := by
    simp [eventFragment]
  rw [h2, List.append_nil]
  exact emitRun_content_fragments model responseId created _ true

theorem contentFrames_eq (model responseId : Str) (created : Nat) (chunks : List Str) :
    contentFrames model responseId created chunks =
      emitRun model responseId created true (sseFragments chunks.flatten) := by
  unfold contentFrames
  rw [transformStream_eq]
  rw [List.filterMap_append, List.filterMap_map]
  simp [Function.comp_def]

theorem emitRun_getElem (model responseId : Str) (created : Nat) :
    ∀ (fs : List Str) (b : Bool) (i : Nat),
      (emitRun model responseId created b fs)[i]? =
        (fs[i]?).map fun f => transformStreamChunk f model responseId created (b && (i == 0)) := by
  intro fs
  induction fs with
  | nil => intro b i; simp [emitRun]
  | cons f fs ih =>
    intro b i
    cases i with
    | zero => simp [emitRun]
    | succ j =>
      simp only [emitRun, List.getElem?_cons_succ, ih false j]
      simp

theorem emitRun_id_created (model responseId : Str) (created : Nat) :
    ∀ (fs : List Str) (b : Bool) (c : SChunk),
      c ∈ emitRun model responseId created b fs → c.id = responseId ∧ c.created = created := by
  intro fs
  induction fs with
  | nil => intro b c hc; simp [emitRun] at hc
  | cons f fs ih =>
    intro b c hc
    simp only [emitRun, List.mem_cons] at hc
    cases hc with
    | inl h => subst h; exact ⟨rfl, rfl⟩
    | inr h => exact ih false c h

/-! ### Lemmas about well-framed record sequences -/

theorem splitMsgs_record (r : Str) : ∀ t : Str, hasNN r = false → r.getLast? ≠ some '\n' →
    splitMsgs (r ++ '\n' :: '\n' :: t) = (r :: (splitMsgs t).1, (splitMsgs t).2) := by
  induction r using splitMsgs.induct with
  | case1 =>
    intro t _ _
    simp [splitMsgs]
  | case2 c =>
    intro t _ hl
    have hc : c ≠ '\n' := fun h => hl (by simp [h])
    have l1 : splitMsgs ('\n' :: '\n' :: t) = ([] :: (splitMsgs t).1, (splitMsgs t).2) := by
      simp [splitMsgs]
    have hcc : ¬(c = '\n' ∧ '\n' = '\n') := fun h => hc h.1
    simp [splitMsgs, hcc, l1, hc]
  | case3 c1 c2 rest h ih =>
    intro t hn _
    exfalso
    rw [h.1, h.2] at hn
    simp [hasNN] at hn
  | case4 c1 c2 rest h b heq ih =>
    intro t hn hl
    have hn' : hasNN (c2 :: rest) = false := by
      simp [hasNN] at hn
      exact hn.2
    have hl' : (c2 :: rest).getLast? ≠ some '\n' := by
      simpa [List.getLast?_cons_cons] using hl
    have key := ih t hn' hl'
    have hcc : ¬(c1 = '\n' ∧ c2 = '\n') := h
    have l1 : (c1 :: c2 :: rest) ++ '\n' :: '\n' :: t = c1 :: c2 :: (rest ++ '\n' :: '\n' :: t) := by
      simp
    rw [l1]
    have key' : splitMsgs (c2 :: (rest ++ '\n' :: '\n' :: t))
        = ((c2 :: rest) :: (splitMsgs t).1, (splitMsgs t).2) := by
      simpa using key
    simp [splitMsgs, hcc, key']
  | case5 c1 c2 rest h m ms b heq ih =>
    intro t hn hl
    have hn' : hasNN (c2 :: rest) = false := by
      simp [hasNN] at hn
      exact hn.2
    have hl' : (c2 :: rest).getLast? ≠ some '\n' := by
      simpa [List.getLast?_cons_cons] using hl
    have key := ih t hn' hl'
    have hcc : ¬(c1 = '\n' ∧ c2 = '\n') := h
    have l1 : (c1 :: c2 :: rest) ++ '\n' :: '\n' :: t = c1 :: c2 :: (rest ++ '\n' :: '\n' :: t) := by
      simp
    rw [l1]
    have key' : splitMsgs (c2 :: (rest ++ '\n' :: '\n' :: t))
        = ((c2 :: rest) :: (splitMsgs t).1, (splitMsgs t).2) := by
      simpa using key
    simp [splitMsgs, hcc, key']

theorem dataFrag_nil : dataFrag [] = none := by decide

theorem splitMsgs_recordsText : ∀ rs : List Str, (∀ r ∈ rs, wellFramed r) →
    splitMsgs (recordsText rs) = (rs, []) := by
  intro rs
  induction rs with
  | nil => intro _; simp [recordsText, splitMsgs]
  | cons r rest ih =>
    intro h
    have hr := h r (List.mem_cons_self r rest)
    have l1 : recordsText (r :: rest) = r ++ '\n' :: '\n' :: recordsText rest := by
      simp [recordsText]
    rw [l1, splitMsgs_record r (recordsText rest) hr.1 hr.2]
    rw [ih fun x hx => h x (List.mem_cons_of_mem r hx)]

theorem sseFragments_recordsText (rs : List Str) (h : ∀ r ∈ rs, wellFramed r) :
    sseFragments (recordsText rs) = rs.filterMap dataFrag := by
  unfold sseFragments
  rw [splitMsgs_recordsText rs h]
  simp [dataFrag_nil]

theorem jsSplitNL_record (r : Str) : ∀ t : Str, hasNL r = false →
    jsSplitNL (r ++ '\n' :: t) = r :: jsSplitNL t := by
  induction r with
  | nil => intro t _; simp [jsSplitNL]
  | cons c cs ih =>
    intro t hn
    simp only [hasNL, List.any_cons, Bool.or_eq_false_iff, beq_eq_false_iff_ne, ne_eq] at hn
    have key := ih t (by simp [hasNL, hn.2])
    have l1 : (c :: cs) ++ '\n' :: t = c :: (cs ++ '\n' :: t) := by simp
    rw [l1]
    simp [jsSplitNL, hn.1, key]

theorem jsSplitNL_recordsText : ∀ rs : List Str, (∀ r ∈ rs, hasNL r = false) →
    jsSplitNL (recordsText rs) = (rs.map fun r => [r, []]).flatten ++ [[]] := by
  intro rs
  induction rs with
  | nil => intro _; simp [recordsText, jsSplitNL]
  | cons r rest ih =>
    intro h
    have hr := h r (List.mem_cons_self r rest)
    have l1 : recordsText (r :: rest) = r ++ '\n' :: '\n' :: recordsText rest := by
      simp [recordsText]
    rw [l1, jsSplitNL_record r ('\n' :: recordsText rest) hr]
    have l2 : jsSplitNL ('\n' :: recordsText rest) = [] :: jsSplitNL (recordsText rest) := by
      simp [jsSplitNL]
    rw [l2, ih fun x hx => h x (List.mem_cons_of_mem r hx)]
    simp

theorem noNL_hasNN (r : Str) : hasNL r = false → hasNN r = false := by
  induction r using hasNN.induct with
  | case1 => intro _; rfl
  | case2 c => intro _; rfl
  | case3 c1 c2 rest ih =>
    intro h
    simp only [hasNL, List.any_cons, Bool.or_eq_false_iff, beq_eq_false_iff_ne, ne_eq] at h
    simp only [hasNN, Bool.or_eq_false_iff]
    refine ⟨?_, ih (by simp [hasNL, h.2])⟩
    simp [h.1]

theorem noNL_getLast (r : Str) : hasNL r = false → r.getLast? ≠ some '\n' := by
  induction r with
  | nil => intro _; simp
  | cons c cs ih =>
    intro h
    simp only [hasNL, List.any_cons, Bool.or_eq_false_iff, beq_eq_false_iff_ne, ne_eq] at h
    cases cs with
    | nil =>
      simp [List.getLast?_singleton, h.1]
    | cons d ds =>
      rw [List.getLast?_cons_cons]
      exact ih h.2

theorem noNL_wellFramed (r : Str) (h : hasNL r = false) : wellFramed r :=
  ⟨noNL_hasNN r h, noNL_getLast r h⟩

theorem filterMap_record_pairs : ∀ rs : List Str,
    ((rs.map fun r => [r, []]).flatten).filterMap dataFrag = rs.filterMap dataFrag := by
  intro rs
  induction rs with
  | nil => simp
  | cons r rest ih =>
    simp only [List.map_cons, List.flatten_cons, List.filterMap_append, ih]
    simp only [List.filterMap_cons, dataFrag_nil]
    cases dataFrag r <;> simp

theorem parseInfiniaxSSE_recordsText (rs : List Str) (h : ∀ r ∈ rs, hasNL r = false) :
    parseInfiniaxSSE (recordsText rs) = (rs.filterMap dataFrag).flatten := by
  unfold parseInfiniaxSSE
  rw [jsSplitNL_recordsText rs h]
  rw [List.filterMap_append, filterMap_record_pairs]
  simp [dataFrag_nil]

theorem isStreamTrue_iff : ∀ o : Option Json, isStreamTrue o = true ↔ o = some (Json.bool true) := by
  intro o
  cases o with
  | none => simp [isStreamTrue]
  | some v =>
    cases v with
    | bool b => cases b <;> simp [isStreamTrue]
    | str s => simp [isStreamTrue]
    | num n => simp [isStreamTrue]
    | null => simp [isStreamTrue]
    | obj fs => simp [isStreamTrue]
    | arr es => simp [isStreamTrue]

/-! ### The claims -/

/-- C1: for every finite sequence of upstream text chunks whose
concatenation forms N well-framed records separated by blank-line `\n\n`
separators, the streaming translation (transform plus flush) emits exactly
the records' fragments, in order, independently of how the text is split
across chunk boundaries (including mid-record and mid-separator splits). -/
theorem C1_frame_ordering (model responseId : Str) (created : Nat) (cs rs : List Str)
    (hwf : ∀ r ∈ rs, wellFramed r)
    (hsplit : cs.flatten = recordsText rs) :
    streamedFragments model responseId created cs = rs.filterMap dataFrag := by
  rw [streamedFragments_eq, hsplit, sseFragments_recordsText rs hwf]

/-- C1 witness: two records carrying `Hel` and `lo`, delivered split
mid-record and mid-separator, yield exactly those two fragments. -/
theorem C1_frame_ordering_witness :
    (∀ r ∈ ([recHel, recLo] : List Str), wellFramed r) ∧
    chunksSplit.flatten = recordsText [recHel, recLo] ∧
    streamedFragments [] [] 0 chunksSplit = ["Hel".toList, "lo".toList] :=
  ⟨by decide, by decide,
   (C1_frame_ordering [] [] 0 chunksSplit [recHel, recLo] (by decide) (by decide)).trans (by decide)⟩

/-- C2 counterexample: on the upstream body `X\ndata: {"chunk":"a"}\n\n`
the non-streaming aggregator extracts `a` (it splits on single newlines)
while the streaming parser emits nothing (the blank-line-delimited block
does not start with `data: `), so the aggregate does not equal the
concatenation of the streamed fragments. -/
theorem C2_counterexample :
    parseInfiniaxSSE mixedRecordText = "a".toList ∧
    streamedFragments [] [] 0 [mixedRecordText] = [] ∧
    parseInfiniaxSSE mixedRecordText ≠ (streamedFragments [] [] 0 [mixedRecordText]).flatten :=
  ⟨by decide, by decide, by decide⟩

/-- C2 amended: for every upstream body text formed of complete single-line
records (the protocol's record shape), the content the non-streaming path
aggregates equals the in-order concatenation of the fragments the streaming
parser emits from the same text; and an empty upstream body yields a 200
ChatResponse with empty content, not an error. -/
theorem C2_aggregation_amended (model responseId : Str) (created : Nat) (rs : List Str)
    (h : ∀ r ∈ rs, hasNL r = false) :
    parseInfiniaxSSE (recordsText rs) =
      (streamedFragments model responseId created [recordsText rs]).flatten ∧
    parseInfiniaxSSE [] = [] ∧
    handleChatCompletions responseId created (some sampleRequest)
        (UpstreamResult.resp 200 (some [])) =
      ChatResult.completion (transformResponse responseId created [] ("m".toList)) := by
  refine ⟨?_, rfl, rfl⟩
  rw [parseInfiniaxSSE_recordsText rs h]
  rw [streamedFragments_eq]
  rw [show ([recordsText rs] : List Str).flatten = recordsText rs by simp]
  rw [sseFragments_recordsText rs fun r hr => noNL_wellFramed r (h r hr)]

/-- C2 amended witness: a chunk record and a done record aggregate to the
same content the streaming parser yields. -/
theorem C2_aggregation_amended_witness :
    (∀ r ∈ ([recHel, recDone] : List Str), hasNL r = false) ∧
    parseInfiniaxSSE (recordsText [recHel, recDone]) =
      (streamedFragments [] [] 0 [recordsText [recHel, recDone]]).flatten :=
  ⟨by decide, (C2_aggregation_amended [] [] 0 [recHel, recDone] (by decide)).1⟩

/-- C3: the literal error-mapping table.  Upstream 401 maps to 401
`Authentication failed`; upstream 500 maps to 502 `Upstream error`; an
unparseable request body maps to 400 `Invalid JSON`; a body with messages
but no model maps to 400 `Missing required fields: model and messages`; a
thrown network failure maps to 502 `Upstream error`; error bodies render as
`{"error":{"message":<string>}}`. -/
theorem C3_error_mapping (responseId : Str) (created : Nat) (req : Json)
    (hv : reqValid req = true) (up : UpstreamResult) (body : Option (List Str)) :
    handleChatCompletions responseId created (some req) (UpstreamResult.resp 401 body) =
      ChatResult.err 401 ("Authentication failed".toList) ∧
    handleChatCompletions responseId created (some req) (UpstreamResult.resp 500 body) =
      ChatResult.err 502 ("Upstream error".toList) ∧
    handleChatCompletions responseId created none up = ChatResult.err 400 ("Invalid JSON".toList) ∧
    handleChatCompletions responseId created
        (some (Json.obj [("messages".toList, Json.arr [])])) up =
      ChatResult.err 400 ("Missing required fields: model and messages".toList) ∧
    handleChatCompletions responseId created (some req) UpstreamResult.netFail =
      ChatResult.err 502 ("Upstream error".toList) ∧
    renderError (handleChatCompletions responseId created none up) =
      some (400, "\x7b\"error\":\x7b\"message\":\"Invalid JSON\"\x7d\x7d".toList) := by
  refine ⟨?_, ?_, rfl, rfl, ?_, rfl⟩
  · simp [handleChatCompletions, hv, handleUpstreamError]
  · simp [handleChatCompletions, hv, handleUpstreamError]
  · simp [handleChatCompletions, hv]

/-- C3 witness: the table instantiated at a concrete valid request. -/
theorem C3_error_mapping_witness :
    reqValid sampleRequest = true ∧
    handleChatCompletions [] 0 (some sampleRequest) (UpstreamResult.resp 401 none) =
      ChatResult.err 401 ("Authentication failed".toList) ∧
    handleChatCompletions [] 0 (some sampleRequest) (UpstreamResult.resp 500 none) =
      ChatResult.err 502 ("Upstream error".toList) :=
  ⟨by decide,
   (C3_error_mapping [] 0 sampleRequest (by decide) UpstreamResult.netFail none).1,
   (C3_error_mapping [] 0 sampleRequest (by decide) UpstreamResult.netFail none).2.1⟩

/-- C4: every streaming call's output is a sequence of content frames
followed by exactly one terminal enqueue, regardless of the number of
fragments (including zero); the terminal chunk has an empty delta and
`finish_reason: "stop"`, and its enqueued bytes end with the literal
`data: [DONE]\n\n` frame immediately after the terminal chunk's frame. -/
theorem C4_termination (model responseId : Str) (created : Nat) (chunks : List Str) :
    (∃ xs : List SChunk,
      transformStream model responseId created chunks =
        xs.map OutEvent.content ++
          [OutEvent.terminal (createStreamEndChunk model responseId created)]) ∧
    ((transformStream model responseId created chunks).filter isTerminalEvent).length = 1 ∧
    (createStreamEndChunk model responseId created).choices =
      [{ index := 0, delta := { role := none, content := none },
         finish_reason := some ("stop".toList) }] ∧
    eventText (OutEvent.terminal (createStreamEndChunk model responseId created)) =
      ("data: ".toList ++ serChunk (createStreamEndChunk model responseId created) ++
        "\n\n".toList) ++ "data: [DONE]\n\n".toList := by
  refine ⟨⟨emitRun model responseId created true (sseFragments chunks.flatten),
           transformStream_eq model responseId created chunks⟩, ?_, rfl, ?_⟩
  · rw [transformStream_eq]
    rw [List.filter_append, List.filter_map]
    simp [isTerminalEvent, Function.comp_def]
  · have hsplit2 : ("\n\ndata: [DONE]\n\n".toList : Str) =
        "\n\n".toList ++ "data: [DONE]\n\n".toList := by decide
    show "data: ".toList ++ serChunk (createStreamEndChunk model responseId created) ++
        "\n\ndata: [DONE]\n\n".toList = _
    rw [hsplit2]
    simp

/-- C5: the i-th content chunk of a re-encoded stream carries delta
`{role: "assistant", content: fᵢ}` when i = 0 and `{content: fᵢ}` with no
role field otherwise, with `finish_reason` null throughout — also when the
first fragment is only emitted in the flush pass. -/
theorem C5_first_chunk_framing (model responseId : Str) (created : Nat)
    (chunks : List Str) (i : Nat) :
    ((contentFrames model responseId created chunks)[i]?).map SChunk.choices =
      ((sseFragments chunks.flatten)[i]?).map fun f =>
        [{ index := 0,
           delta := { role := if i = 0 then some ("assistant".toList) else none,
                      content := some f },
           finish_reason := none }] := by
  rw [contentFrames_eq, emitRun_getElem]
  cases hfs : (sseFragments chunks.flatten)[i]? with
  | none => simp
  | some f =>
    cases i with
    | zero => simp [transformStreamChunk]
    | succ j => simp [transformStreamChunk]

/-- C6 counterexample: with a valid non-streaming request and an upstream
success response carrying no body at all, the code returns a 200
ChatResponse with empty content (``.text()`` of a null body is the empty
string), not a 502 `Upstream error`; the streaming path does fail with 502
but with the message `No response body from upstream`. -/
theorem C6_counterexample :
    handleChatCompletions [] 0 (some sampleRequest) (UpstreamResult.resp 200 none) =
      ChatResult.completion (transformResponse [] 0 [] ("m".toList)) ∧
    statusOf (handleChatCompletions [] 0 (some sampleRequest) (UpstreamResult.resp 200 none)) = 200 ∧
    handleChatCompletions [] 0 (some sampleRequest) (UpstreamResult.resp 200 none) ≠
      ChatResult.err 502 ("Upstream error".toList) ∧
    handleChatCompletions [] 0 (some sampleStreamRequest) (UpstreamResult.resp 200 none) ≠
      ChatResult.err 502 ("Upstream error".toList) :=
  ⟨by decide, by decide, by decide, by decide⟩

/-- C6 amended: when the upstream responds with a success status and no
body at all, a streaming call fails with HTTP 502 and the message
`No response body from upstream`, while a non-streaming call treats the
missing body as empty text and returns a 200 ChatResponse with empty
content. -/
theorem handleChat_ok (responseId : Str) (created : Nat) (req : Json)
    (hv : reqValid req = true) (status : Nat) (hok : 200 ≤ status ∧ status ≤ 299)
    (body : Option (List Str)) :
    handleChatCompletions responseId created (some req) (UpstreamResult.resp status body) =
      (if isStreamTrue (jsGet req ("stream".toList)) then
        handleStreamingResponse body (asString (jsGet req ("model".toList))) responseId created
       else
        handleNonStreamingResponse ((body.getD []).flatten)
          (asString (jsGet req ("model".toList))) responseId created) := by
  unfold handleChatCompletions
  simp [hv, hok.1, hok.2]

theorem C6_missing_body_amended (responseId : Str) (created : Nat) (req : Json)
    (hv : reqValid req = true) :
    (isStreamTrue (jsGet req ("stream".toList)) = true →
      handleChatCompletions responseId created (some req) (UpstreamResult.resp 200 none) =
        ChatResult.err 502 ("No response body from upstream".toList)) ∧
    (isStreamTrue (jsGet req ("stream".toList)) = false →
      handleChatCompletions responseId created (some req) (UpstreamResult.resp 200 none) =
        ChatResult.completion (transformResponse responseId created []
          (asString (jsGet req ("model".toList))))) := by
  constructor
  · intro hs
    rw [handleChat_ok responseId created req hv 200 (by decide) none, hs]
    simp [handleStreamingResponse]
  · intro hs
    rw [handleChat_ok responseId created req hv 200 (by decide) none, hs]
    simp [handleNonStreamingResponse, show parseInfiniaxSSE [] = ([] : Str) from rfl]

/-- C6 amended witness: both branches at concrete requests. -/
theorem C6_missing_body_amended_witness :
    reqValid sampleStreamRequest = true ∧
    isStreamTrue (jsGet sampleStreamRequest ("stream".toList)) = true ∧
    handleChatCompletions [] 0 (some sampleStreamRequest) (UpstreamResult.resp 200 none) =
      ChatResult.err 502 ("No response body from upstream".toList) :=
  ⟨by decide, by decide,
   (C6_missing_body_amended [] 0 sampleStreamRequest (by decide)).1 (by decide)⟩

/-- C7: for every ChatRequest with non-empty model and non-empty messages,
`transformRequest` keeps the message sequence identical, copies the model
verbatim into `modelId`, and sets `webSearchEnabled` (to `true`) iff
`web_search` is truthy; otherwise the field is omitted, not set to false. -/
theorem C7_request_mapping (r : OpenAIRequest) (h1 : r.model ≠ []) (h2 : r.messages ≠ []) :
    (transformRequest r).messages = r.messages ∧
    (transformRequest r).modelId = r.model ∧
    ((transformRequest r).webSearchEnabled = some true ↔ r.web_search = some true) ∧
    (r.web_search ≠ some true → (transformRequest r).webSearchEnabled = none) := by
  refine ⟨rfl, rfl, ?_, ?_⟩
  · unfold transformRequest
    rcases hw : r.web_search with _ | b
    · simp [hw]
    · cases b <;> simp [hw]
  · intro hne
    unfold transformRequest
    rcases hw : r.web_search with _ | b
    · simp
    · cases b
      · simp
      · exact absurd hw hne

/-- C7 witness: applied at a concrete request. -/
theorem C7_request_mapping_witness :
    sampleOpenAIRequest.model ≠ [] ∧ sampleOpenAIRequest.messages ≠ [] ∧
    ((transformRequest sampleOpenAIRequest).messages = sampleOpenAIRequest.messages ∧
     (transformRequest sampleOpenAIRequest).modelId = sampleOpenAIRequest.model ∧
     ((transformRequest sampleOpenAIRequest).webSearchEnabled = some true ↔
       sampleOpenAIRequest.web_search = some true) ∧
     (sampleOpenAIRequest.web_search ≠ some true →
       (transformRequest sampleOpenAIRequest).webSearchEnabled = none)) :=
  ⟨by decide, by decide, C7_request_mapping sampleOpenAIRequest (by decide) (by decide)⟩

/-- C8: every frame of one streaming call — content chunks and the terminal
chunk alike — carries the call's single response id and single created
timestamp, fixed once at call start. -/
theorem C8_stable_id_timestamp (model responseId : Str) (created : Nat) (chunks : List Str)
    (e : OutEvent) (he : e ∈ transformStream model responseId created chunks) :
    (eventChunk e).id = responseId ∧ (eventChunk e).created = created := by
  rw [transformStream_eq] at he
  rcases List.mem_append.mp he with hm | hm
  · rcases List.mem_map.mp hm with ⟨c, hc, rfl⟩
    exact emitRun_id_created model responseId created _ true c hc
  · have he2 : e = OutEvent.terminal (createStreamEndChunk model responseId created) := by
      simpa using hm
    subst he2
    exact ⟨rfl, rfl⟩

/-- C8 witness: the terminal frame of an empty stream. -/
theorem C8_stable_id_timestamp_witness :
    OutEvent.terminal (createStreamEndChunk ("m".toList) ("id0".toList) 7) ∈
      transformStream ("m".toList) ("id0".toList) 7 [] ∧
    ((eventChunk (OutEvent.terminal (createStreamEndChunk ("m".toList) ("id0".toList) 7))).id =
        "id0".toList ∧
     (eventChunk (OutEvent.terminal (createStreamEndChunk ("m".toList) ("id0".toList) 7))).created = 7) :=
  ⟨by decide, C8_stable_id_timestamp ("m".toList) ("id0".toList) 7 [] _ (by decide)⟩

/-- C9: the upstream request body built from any ChatRequest serializes
exactly the fields `modelId`, `messages` and (when enabled)
`webSearchEnabled`; the caller's `temperature`, `max_tokens` and `stream`
fields are dropped and never forwarded. -/
theorem C9_no_extra_fields (r : OpenAIRequest) :
    ((encodeInfiniaxRequest (transformRequest r)).map Prod.fst =
        ["modelId".toList, "messages".toList] ∨
     (encodeInfiniaxRequest (transformRequest r)).map Prod.fst =
        ["modelId".toList, "messages".toList, "webSearchEnabled".toList]) ∧
    "temperature".toList ∉ (encodeInfiniaxRequest (transformRequest r)).map Prod.fst ∧
    "max_tokens".toList ∉ (encodeInfiniaxRequest (transformRequest r)).map Prod.fst ∧
    "stream".toList ∉ (encodeInfiniaxRequest (transformRequest r)).map Prod.fst := by
  have hk : (encodeInfiniaxRequest (transformRequest r)).map Prod.fst =
        ["modelId".toList, "messages".toList] ∨
      (encodeInfiniaxRequest (transformRequest r)).map Prod.fst =
        ["modelId".toList, "messages".toList, "webSearchEnabled".toList] := by
    unfold encodeInfiniaxRequest transformRequest
    rcases hw : r.web_search with _ | b
    · left; simp
    · cases b
      · left; simp
      · right; simp
  refine ⟨hk, ?_, ?_, ?_⟩ <;> rcases hk with hk | hk <;> rw [hk] <;> decide

/-- C10: given a valid request and an upstream success response with a
body, the call takes the streaming path iff the request's `stream` field is
exactly the boolean `true`; any other value (absent, `false`, `null`, the
string `"true"`, the number `1`, ...) yields the aggregated JSON
ChatResponse. -/
theorem C10_streaming_iff (responseId : Str) (created : Nat) (req : Json)
    (hv : reqValid req = true) (status : Nat) (hok : 200 ≤ status ∧ status ≤ 299)
    (chunks : List Str) :
    ((∃ es, handleChatCompletions responseId created (some req)
        (UpstreamResult.resp status (some chunks)) = ChatResult.stream es) ↔
      jsGet req ("stream".toList) = some (Json.bool true)) ∧
    (isStreamTrue (jsGet req ("stream".toList)) = false →
      handleChatCompletions responseId created (some req)
          (UpstreamResult.resp status (some chunks)) =
        ChatResult.completion (transformResponse responseId created
          (parseInfiniaxSSE chunks.flatten) (asString (jsGet req ("model".toList))))) := by
  have hd := handleChat_ok responseId created req hv status hok (some chunks)
  constructor
  · constructor
    · rintro ⟨es, hes⟩
      by_cases hs : isStreamTrue (jsGet req ("stream".toList)) = true
      · exact (isStreamTrue_iff _).mp hs
      · exfalso
        rw [hd] at hes
        rw [Bool.not_eq_true] at hs
        rw [hs] at hes
        simp [handleNonStreamingResponse] at hes
    · intro hst
      have hs : isStreamTrue (jsGet req ("stream".toList)) = true := (isStreamTrue_iff _).mpr hst
      refine ⟨transformStream (asString (jsGet req ("model".toList))) responseId created chunks, ?_⟩
      rw [hd, hs]
      simp [handleStreamingResponse]
  · intro hs
    rw [hd, hs]
    simp [handleNonStreamingResponse]

/-- C10 witness: a request without `stream` and one with the truthy
non-boolean `"true"` both take the aggregated path. -/
theorem C10_streaming_iff_witness :
    reqValid sampleRequest = true ∧ reqValid sampleStreamStrRequest = true ∧
    isStreamTrue (jsGet sampleStreamStrRequest ("stream".toList)) = false ∧
    handleChatCompletions [] 0 (some sampleRequest) (UpstreamResult.resp 200 (some [])) =
      ChatResult.completion (transformResponse [] 0 (parseInfiniaxSSE ([] : List Str).flatten)
        (asString (jsGet sampleRequest ("model".toList)))) ∧
    handleChatCompletions [] 0 (some sampleStreamStrRequest) (UpstreamResult.resp 200 (some [])) =
      ChatResult.completion (transformResponse [] 0 (parseInfiniaxSSE ([] : List Str).flatten)
        (asString (jsGet sampleStreamStrRequest ("model".toList)))) :=
  ⟨by decide, by decide, by decide,
   (C10_streaming_iff [] 0 sampleRequest (by decide) 200 (by decide) []).2 (by decide),
   (C10_streaming_iff [] 0 sampleStreamStrRequest (by decide) 200 (by decide) []).2 (by decide)⟩
